import Mathlib

/-!
Shallow embedding of the GBV MVP simulation pipeline
(`simulate_mvp.py`, `gbv-pilot-study/utils.py`, `gbv-pilot-study/config.py`).

Strings are modelled as Lean `String` / `List Char`.  The Python regular
expressions used by the extractors are small and fixed, so each one is
translated into an explicit left-to-right scanner with the exact
leftmost-match / greedy / lazy backtracking semantics of the original
pattern (worked out case by case in the comments below).

The external TinyTroupe agent (`persona.listen_and_act` followed by
`_extract_talk_text`) is modelled as an oracle `Nat → Except String String`
giving, for each successive call, either the extracted reply text or a
raised exception.  `random` (seeded once per run) is modelled as a stream
`Nat → Nat` of draws consumed at successive indices.
-/

namespace GBV

/-- Python `\s` whitespace class (ASCII): space, tab, newline, CR, VT, FF. -/
def isSpaceChar (c : Char) : Bool :=
  c = ' ' || c = '\t' || c = '\n' || c = '\r' || c = '\x0b' || c = '\x0c'

/-- Python `\d` digit class (ASCII): the code points of `'0'`–`'9'`. -/
def isDigitChar (c : Char) : Bool :=
  48 ≤ c.toNat && c.toNat ≤ 57

/-- ASCII lower-casing, as used by `re.IGNORECASE` and `str.lower()`:
`'A'`–`'Z'` shift to `'a'`–`'z'`. -/
def lowerChar (c : Char) : Char :=
  if 65 ≤ c.toNat && c.toNat ≤ 90 then Char.ofNat (c.toNat + 32) else c

/-- ASCII upper-casing, as used by `str.upper()` on the matched label:
`'a'`–`'z'` shift to `'A'`–`'Z'`. -/
def upperChar (c : Char) : Char :=
  if 97 ≤ c.toNat && c.toNat ≤ 122 then Char.ofNat (c.toNat - 32) else c

/-- Case-insensitive literal prefix test (the `re.IGNORECASE` flag). -/
def ciIsPrefix : List Char → List Char → Bool
  | [], _ => true
  | _ :: _, [] => false
  | p :: ps, c :: cs => (lowerChar p = lowerChar c) && ciIsPrefix ps cs

/-- Length of the leading run of `\s` characters (the maximal match of a
greedy `\s*`). -/
def wsRun : List Char → Nat
  | [] => 0
  | c :: rest => if isSpaceChar c then wsRun rest + 1 else 0

/-- Python `str.strip()`: drop leading and trailing whitespace. -/
def pyStrip (l : List Char) : List Char :=
  ((l.dropWhile isSpaceChar).reverse.dropWhile isSpaceChar).reverse

/-- Case-insensitive substring test: Python `a.lower() in b.lower()`. -/
def isSubstrCI (needle hay : List Char) : Bool :=
  go (needle.map lowerChar) (hay.map lowerChar)
where
  go (n : List Char) : List Char → Bool
    | [] => n.isEmpty
    | h :: rest => n.isPrefixOf (h :: rest) || go n rest

/-! ### `re.search(r'CHOICE:\s*(.+?)(?:\n|REASONING|$)', response, re.IGNORECASE)`
(utils.py line 16).

After the literal `CHOICE:` the engine tries the greedy `\s*` from its
maximal match downwards; for each split the lazy `(.+?)` (one or more
non-newline characters, shortest first) must be followed by `\n`, the
literal `REASONING` (case-insensitive), or `$`.  A position just before a
final trailing newline also satisfies `$`, but the `\n` alternative fires
there first, so `$` behaves as end-of-input. -/

/-- The `(?:\n|REASONING|$)` alternation, tested at the position after the
lazy group. -/
def charStop : List Char → Bool
  | [] => true
  | c :: rest => c = '\n' || ciIsPrefix "REASONING".data (c :: rest)

/-- The lazy `(.+?)` followed by `charStop`: shortest non-empty run of
non-newline characters whose right boundary satisfies the alternation. -/
def lazyGroup : List Char → Option (List Char)
  | [] => none
  | c :: rest =>
    if c = '\n' then none
    else if charStop rest then some [c]
    else match lazyGroup rest with
      | some g => some (c :: g)
      | none => none

/-- Greedy `\s*`: try dropping `w` whitespace characters, `w` from the full
leading run downwards, and take the first split where the rest matches. -/
def tryWs : Nat → List Char → Option (List Char)
  | 0, rest => lazyGroup rest
  | w + 1, rest =>
    match lazyGroup (rest.drop (w + 1)) with
    | some g => some g
    | none => tryWs w rest

/-- Scan left to right for the leftmost `CHOICE:` occurrence whose tail
matches; returns the raw capture group of the regex. -/
def findCharChoice : List Char → Option (List Char)
  | [] => none
  | c :: rest =>
    if ciIsPrefix "CHOICE:".data (c :: rest) then
      let after := (c :: rest).drop 7
      match tryWs (wsRun after) after with
      | some g => some g
      | none => findCharChoice rest
    else findCharChoice rest

/-! ### `re.search(r'REASONING:\s*(.+?)$', response, re.IGNORECASE | re.DOTALL)`
(utils.py lines 17 and 43).

With `DOTALL`, `.` matches every character, and `$` matches at end of
input or just before one final trailing newline.  Working the greedy/lazy
backtracking through (every use strips the group afterwards), the match
exists iff some text follows the leftmost `REASONING:` marker, and the
stripped group equals the stripped tail after the marker; the scanner
returns that raw tail. -/
def findReasoning : List Char → Option (List Char)
  | [] => none
  | c :: rest =>
    if ciIsPrefix "REASONING:".data (c :: rest) then
      let after := (c :: rest).drop 10
      if after.isEmpty then findReasoning rest else some after
    else findReasoning rest

/-! ### `re.search(r'CHOICE:\s*([A-D])', response, re.IGNORECASE)`
(utils.py line 42).

`[A-D]` under `IGNORECASE` also accepts `a`–`d`.  The whitespace class and
the label class are disjoint, so the greedy `\s*` either leaves a label
character right after the full whitespace run or the occurrence fails. -/

/-- `[A-D]` under `re.IGNORECASE`: the code points of `'A'`–`'D'` and
`'a'`–`'d'`. -/
def isLabelCI (c : Char) : Bool :=
  (65 ≤ c.toNat && c.toNat ≤ 68) || (97 ≤ c.toNat && c.toNat ≤ 100)

def findDecisionChoice : List Char → Option Char
  | [] => none
  | c :: rest =>
    if ciIsPrefix "CHOICE:".data (c :: rest) then
      let after := (c :: rest).drop 7
      match (after.drop (wsRun after)).head? with
      | some d => if isLabelCI d then some d else findDecisionChoice rest
      | none => findDecisionChoice rest
    else findDecisionChoice rest

/-! ### `re.search(r'^([A-D])[\.\):\s]', response, re.MULTILINE)`
(utils.py line 49, case-sensitive).

`^` under `MULTILINE` matches at position 0 and right after every
newline; the label must be an uppercase `A`–`D` followed by one separator
character from `{., ), :} ∪ \s`. -/

def isSepChar (c : Char) : Bool :=
  c = '.' || c = ')' || c = ':' || isSpaceChar c

def findLineStartLabel : Bool → List Char → Option Char
  | _, [] => none
  | atLineStart, c :: rest =>
    if atLineStart then
      match rest.head? with
      | some d =>
        if (65 ≤ c.toNat && c.toNat ≤ 68) && isSepChar d then some c
        else findLineStartLabel (c = '\n') rest
      | none => none
    else findLineStartLabel (c = '\n') rest

/-! ### `re.findall(r'Rate:\s*(\d)', response, re.IGNORECASE)`
(utils.py lines 83-84).

Non-overlapping left-to-right matches; after a successful match the scan
resumes right after the captured digit.  Fuel (the input length) makes the
recursion structural; each step consumes at least one character, so the
fuel never runs out before the input does. -/
def findRatesFuel : Nat → List Char → List Char
  | 0, _ => []
  | _ + 1, [] => []
  | fuel + 1, c :: rest =>
    if ciIsPrefix "Rate:".data (c :: rest) then
      let after := (c :: rest).drop 5
      match (after.drop (wsRun after)) with
      | d :: t =>
        if isDigitChar d then d :: findRatesFuel fuel t
        else findRatesFuel fuel rest
      | [] => findRatesFuel fuel rest
    else findRatesFuel fuel rest

def findRates (l : List Char) : List Char :=
  findRatesFuel l.length l

/-! ### `re.search(r'N\..*?Explain:\s*(.+?)(?=\n\d+\.|$)', response, re.DOTALL | re.IGNORECASE)`
and the same shape with `Answer:` (utils.py lines 95-143).

The leftmost match anchors at the first occurrence of the literal
question tag `N.`; the lazy `.*?` then reaches the first `Explain:` /
`Answer:` marker after it (if none follows, later tags cannot help, so the
search fails).  The group is the shortest non-empty run of characters (any
character, `DOTALL`) whose right boundary is end of input, just before a
single final newline, or a lookahead `\n\d+\.`. -/

/-- Case-insensitive leftmost literal search; returns the tail after the
occurrence. -/
def findCI (pat : List Char) : List Char → Option (List Char)
  | [] => if pat.isEmpty then some [] else none
  | c :: rest =>
    if ciIsPrefix pat (c :: rest) then some ((c :: rest).drop pat.length)
    else findCI pat rest

/-- The lookahead `(?=\n\d+\.|$)` at the position after the lazy group. -/
def stopQ (rest : List Char) : Bool :=
  match rest with
  | [] => true
  | '\n' :: tail =>
    tail.isEmpty ||
      (let r := wsDigits tail
       0 < r && (tail.drop r).head? = some '.')
  | _ :: _ => false
where
  /-- length of the leading digit run (the greedy `\d+`). -/
  wsDigits : List Char → Nat
    | [] => 0
    | c :: rest => if isDigitChar c then wsDigits rest + 1 else 0

/-- Lazy `(.+?)` under `DOTALL` bounded by `stopQ`. -/
def lazyGroupQ : List Char → Option (List Char)
  | [] => none
  | c :: rest =>
    if stopQ rest then some [c]
    else match lazyGroupQ rest with
      | some g => some (c :: g)
      | none => none

/-- Greedy `\s*` then `lazyGroupQ`, widest whitespace split first. -/
def tryWsQ : Nat → List Char → Option (List Char)
  | 0, rest => lazyGroupQ rest
  | w + 1, rest =>
    match lazyGroupQ (rest.drop (w + 1)) with
    | some g => some g
    | none => tryWsQ w rest

/-- One numbered survey section: tag (`"1."` … `"10."`), then marker
(`"Explain:"` or `"Answer:"`), then the captured span. -/
def findQSection (qtag marker : List Char) (s : List Char) : Option (List Char) :=
  match findCI qtag s with
  | none => none
  | some afterTag =>
    match findCI marker afterTag with
    | none => none
    | some afterMarker => tryWsQ (wsRun afterMarker) afterMarker

/-! ## The extractors (`gbv-pilot-study/utils.py`)

Each takes `Option String`: `none` models Python `None`, and the empty
string is falsy, so both hit the `if not response or not
isinstance(response, str)` guard. -/

/-- Valid character roster hard-coded in `parse_character_selection`
(utils.py line 22). -/
def validCharacters : List String :=
  ["Alex Chen", "Jordan Williams", "Sam Rivera"]

/-- The `for char_name in [...]` loop with `break` (utils.py lines 22-25):
replace the extracted text by the first roster name that is a
case-insensitive substring of it; otherwise keep the text as is. -/
def rosterLoop : List String → String → String
  | [], choice => choice
  | n :: rest, choice =>
    if isSubstrCI n.data choice.data then n else rosterLoop rest choice

/-- `parse_character_selection` (utils.py lines 8-32). -/
def parse_character_selection : Option String → String × String
  | none => ("Alex Chen", "Default selection due to invalid response")
  | some response =>
    if response = "" then
      ("Alex Chen", "Default selection due to invalid response")
    else
      let choice :=
        match findCharChoice response.data with
        | some g => rosterLoop validCharacters (String.mk (pyStrip g))
        | none => "Alex Chen"
      let reasoning :=
        match findReasoning response.data with
        | some g => String.mk (pyStrip g)
        | none => "Selected based on background"
      (choice, reasoning)

/-- `parse_decision_response` (utils.py lines 34-54). -/
def parse_decision_response : Option String → String × String
  | none => ("A", "Default choice due to invalid response")
  | some response =>
    if response = "" then
      ("A", "Default choice due to invalid response")
    else
      let choice :=
        match findDecisionChoice response.data with
        | some c => String.mk [upperChar c]
        | none =>
          match findLineStartLabel true response.data with
          | some c => String.mk [upperChar c]
          | none => "A"
      let reasoning :=
        match findReasoning response.data with
        | some g => String.mk (pyStrip g)
        | none => "Default reasoning"
      (choice, reasoning)

/-- The survey record built by `parse_feedback_response`
(utils.py lines 59-76). -/
structure Feedback where
  realistic : Nat
  realistic_explain : String
  felt_safe : Nat
  felt_safe_explain : String
  helpful_feedback : Nat
  helpful_feedback_explain : String
  would_recommend : Nat
  would_recommend_explain : String
  confidence : Nat
  confidence_explain : String
  most_valuable_scenario : String
  likely_strategy : String
  what_worked : String
  improvements : String
  cultural_relevance : String
  raw_response : String
deriving DecidableEq

/-- The initial feedback dict: ratings default to 3, texts to empty
(utils.py lines 59-76). -/
def initFeedback (raw : String) : Feedback :=
  ⟨3, "", 3, "", 3, "", 3, "", 3, "", "", "", "", "", "", raw⟩

/-- Python `int` on a one-digit capture. -/
def digitVal (c : Char) : Nat := c.toNat - '0'.toNat

/-- `if match: field = match.group(1).strip()`, else keep the default. -/
def sectionD (qtag marker : String) (s : String) (dflt : String) : String :=
  match findQSection qtag.data marker.data s.data with
  | some g => String.mk (pyStrip g)
  | none => dflt

/-- `parse_feedback_response` (utils.py lines 56-145). -/
def parse_feedback_response : Option String → Feedback
  | none => initFeedback ""
  | some response =>
    if response = "" then initFeedback ""
    else
      let fb0 := initFeedback response
      let ratings := findRates response.data
      let fb1 :=
        if 5 ≤ ratings.length then
          { fb0 with
            realistic := digitVal (ratings.getD 0 '0')
            felt_safe := digitVal (ratings.getD 1 '0')
            helpful_feedback := digitVal (ratings.getD 2 '0')
            would_recommend := digitVal (ratings.getD 3 '0')
            confidence := digitVal (ratings.getD 4 '0') }
        else fb0
      { fb1 with
        realistic_explain := sectionD "1." "Explain:" response fb1.realistic_explain
        felt_safe_explain := sectionD "2." "Explain:" response fb1.felt_safe_explain
        helpful_feedback_explain :=
          sectionD "3." "Explain:" response fb1.helpful_feedback_explain
        would_recommend_explain :=
          sectionD "4." "Explain:" response fb1.would_recommend_explain
        confidence_explain := sectionD "5." "Explain:" response fb1.confidence_explain
        most_valuable_scenario :=
          sectionD "6." "Answer:" response fb1.most_valuable_scenario
        likely_strategy := sectionD "7." "Answer:" response fb1.likely_strategy
        what_worked := sectionD "8." "Answer:" response fb1.what_worked
        improvements := sectionD "9." "Answer:" response fb1.improvements
        cultural_relevance := sectionD "10." "Answer:" response fb1.cultural_relevance }

/-! ## Configuration (`gbv-pilot-study/config.py`) -/

def SKILLS : List String :=
  ["warning_signs", "direct_intervention", "distraction",
   "support_survivor", "know_resources"]

def OUTPUT_DIR : String := "outputs"

def RESULTS_FILE : String := OUTPUT_DIR ++ "/simulation_results.json"

/-! ## Data model (`simulate_mvp.py` and `scenarios_map.json`)

Python dicts that are iterated in insertion order (`decision_point
["options"]`, the skill dict) are modelled as association lists. -/

structure Opt where
  text : String
  skills : List String
  feedback : String
deriving DecidableEq

structure DecisionPoint where
  id : String
  prompt : String
  options : List (String × Opt)
deriving DecidableEq

structure Scenario where
  id : String
  name : String
  context : String
  decision_points : List DecisionPoint
deriving DecidableEq

structure DecisionRecord where
  decision_id : String
  choice : String
  choice_text : String
  reasoning : String
  feedback_received : String
deriving DecidableEq

structure ScenarioRecord where
  scenario_id : String
  scenario_name : String
  decisions : List DecisionRecord
  skills_earned : List String
  time_spent_seconds : Nat
deriving DecidableEq

/-- `journey["final_skills"]`: a Python dict from skill name to count. -/
abbrev Skills := List (String × Nat)

structure CharacterSelection where
  character_selected : String
  reasoning : String
deriving DecidableEq

structure Journey where
  persona_id : String
  persona_background : String
  character_selection : Option CharacterSelection
  scenarios : List ScenarioRecord
  final_skills : Skills
  feedback : Option Feedback
  completion_status : String
  error : Option String
  error_traceback : Option String
deriving DecidableEq

structure Persona where
  name : String
  background : String
deriving DecidableEq

/-- The run environment: the loaded scenario catalog, the external agent
oracle (reply text of the n-th `listen_and_act` call, already passed
through `_extract_talk_text`, or the exception it raises), and the
pseudo-random stream (the n-th draw of the `random` module, seeded once in
`__init__`). -/
structure Env where
  scenarios_data : List Scenario
  agent : Nat → Except String String
  rng : Nat → Nat

/-- Mutable position in the two streams. -/
structure RunState where
  agentIdx : Nat
  rngIdx : Nat
deriving DecidableEq

/-- Association-list lookup: Python `d[k]` access / `k in d` test. -/
def alookup {β : Type} (k : String) : List (String × β) → Option β
  | [] => none
  | (k', v) :: rest => if k = k' then some v else alookup k rest

/-- `list(d.keys())` in insertion order. -/
def keysOf {β : Type} (l : List (String × β)) : List String :=
  l.map Prod.fst

/-- `d[k] += 1`: `none` models the `KeyError` raised when `k` is absent. -/
def bump (k : String) : Skills → Option Skills
  | [] => none
  | (k', v) :: rest =>
    if k = k' then some ((k', v + 1) :: rest)
    else (bump k rest).map (fun r => (k', v) :: r)

/-- `random.randint(lo, hi)`, both ends inclusive, drawn from one stream
value. -/
def randint (lo hi r : Nat) : Nat := lo + r % (hi + 1 - lo)

/-- `random.choice(lst)`: `none` models the `IndexError` on an empty
sequence. -/
def pyChoice (l : List String) (r : Nat) : Option String :=
  l.get? (r % l.length)

/-! ## The simulator (`simulate_mvp.py`) -/

/-- `MVPSimulator.simulate_character_selection` (lines 34-66): one agent
call, then `parse_character_selection`.  (The `timestamp` field is
wall-clock only and is not modelled.) -/
def simulate_character_selection (env : Env) (st : RunState) :
    RunState × Except String CharacterSelection :=
  match env.agent st.agentIdx with
  | .error e => ({ st with agentIdx := st.agentIdx + 1 }, .error e)
  | .ok response =>
    let cr := parse_character_selection (some response)
    ({ st with agentIdx := st.agentIdx + 1 }, .ok ⟨cr.1, cr.2⟩)

/-- `MVPSimulator.simulate_decision_point` (lines 115-161): one agent
call, `parse_decision_response`, then the validation of lines 150-153
(substitute `random.choice` over the legal labels and the fixed
parsing-error reasoning when the extracted label is not a key of
`decision_point["options"]`), then the record of lines 155-161. -/
def simulate_decision_point (env : Env) (dp : DecisionPoint) (st : RunState) :
    RunState × Except String DecisionRecord :=
  match env.agent st.agentIdx with
  | .error e => ({ st with agentIdx := st.agentIdx + 1 }, .error e)
  | .ok response =>
    let st1 : RunState := { st with agentIdx := st.agentIdx + 1 }
    let pr := parse_decision_response (some response)
    match alookup pr.1 dp.options with
    | some o => (st1, .ok ⟨dp.id, pr.1, o.text, pr.2, o.feedback⟩)
    | none =>
      let st2 : RunState := { st1 with rngIdx := st1.rngIdx + 1 }
      match pyChoice (keysOf dp.options) (env.rng st1.rngIdx) with
      | none => (st2, .error "IndexError: Cannot choose from an empty sequence")
      | some c =>
        match alookup c dp.options with
        | some o =>
          (st2, .ok ⟨dp.id, c, o.text, "Default choice due to parsing error", o.feedback⟩)
        | none => (st2, .error "KeyError")

/-- The `for skill in chosen_option["skills"]` loop of lines 108-111:
`current_skills[skill] += 1` (which may raise `KeyError`, leaving the
earlier increments in place), then the `skills_earned` de-duplicated
append. -/
def accrue : List String → Skills → List String → Skills × List String × Option String
  | [], sk, earned => (sk, earned, none)
  | t :: ts, sk, earned =>
    match bump t sk with
    | some sk' => accrue ts sk' (if earned.contains t then earned else earned ++ [t])
    | none => (sk, earned, some ("KeyError: " ++ t))

/-- The `for decision_point in scenario_data["decision_points"]` loop of
`simulate_scenario` (lines 95-111).  An exception mid-loop discards the
local `scenario_result` (records built so far) but keeps the in-place
mutations of `current_skills`. -/
def scenarioGo (env : Env) (sc : Scenario) (time : Nat) :
    List DecisionPoint → Skills → RunState → List DecisionRecord → List String →
    Skills × RunState × Except String ScenarioRecord
  | [], sk, st, recs, earned => (sk, st, .ok ⟨sc.id, sc.name, recs, earned, time⟩)
  | dp :: rest, sk, st, recs, earned =>
    match simulate_decision_point env dp st with
    | (st', .error e) => (sk, st', .error e)
    | (st', .ok rec) =>
      match alookup rec.choice dp.options with
      | none => (sk, st', .error "KeyError")
      | some o =>
        match accrue o.skills sk earned with
        | (sk', _, some e) => (sk', st', .error e)
        | (sk', earned', none) =>
          scenarioGo env sc time rest sk' st' (recs ++ [rec]) earned'

/-- `MVPSimulator.simulate_scenario` (lines 83-113): draw the synthetic
duration `random.randint(180, 420)`, then walk the decision points. -/
def simulate_scenario (env : Env) (sc : Scenario) (sk : Skills) (st : RunState) :
    Skills × RunState × Except String ScenarioRecord :=
  let time := randint 180 420 (env.rng st.rngIdx)
  scenarioGo env sc time sc.decision_points sk { st with rngIdx := st.rngIdx + 1 } [] []

/-- The `for scenario_data in self.scenarios_data["scenarios"]` loop of
lines 269-276.  The returned record list holds the scenarios appended to
`journey["scenarios"]` before any exception. -/
def runScenarios (env : Env) :
    List Scenario → Skills → RunState →
    Skills × RunState × List ScenarioRecord × Option String
  | [], sk, st => (sk, st, [], none)
  | sc :: rest, sk, st =>
    match simulate_scenario env sc sk st with
    | (sk', st', .error e) => (sk', st', [], some e)
    | (sk', st', .ok rec) =>
      let r := runScenarios env rest sk' st'
      (r.1, r.2.1, rec :: r.2.2.1, r.2.2.2)

/-- `MVPSimulator.generate_feedback_response` (lines 163-243): one agent
call, then `parse_feedback_response`. -/
def generate_feedback_response (env : Env) (st : RunState) :
    RunState × Except String Feedback :=
  match env.agent st.agentIdx with
  | .error e => ({ st with agentIdx := st.agentIdx + 1 }, .error e)
  | .ok response =>
    ({ st with agentIdx := st.agentIdx + 1 }, .ok (parse_feedback_response (some response)))

/-- `journey["final_skills"] = {skill: 0 for skill in SKILLS}` (line 258). -/
def initSkills : Skills := SKILLS.map (fun s => (s, 0))

/-- `MVPSimulator.simulate_full_journey` (lines 245-297): the initial
journey dict, then the `try` block (character selection, scenario loop,
status `completed`, feedback), with the `except` clause of lines 288-296
capturing any exception into the journey (which keeps every in-place
mutation made before the fault) and setting status `error`.  The
traceback text is modelled by the exception message itself. -/
def simulate_full_journey (env : Env) (p : Persona) (st : RunState) :
    RunState × Journey :=
  let j0 : Journey :=
    { persona_id := p.name
      persona_background := p.background
      character_selection := none
      scenarios := []
      final_skills := initSkills
      feedback := none
      completion_status := "incomplete"
      error := none
      error_traceback := none }
  match simulate_character_selection env st with
  | (st1, .error e) =>
    (st1, { j0 with completion_status := "error", error := some e,
                    error_traceback := some e })
  | (st1, .ok cs) =>
    let j1 := { j0 with character_selection := some cs }
    match runScenarios env env.scenarios_data j1.final_skills st1 with
    | (sk, st2, recs, some e) =>
      (st2, { j1 with scenarios := recs, final_skills := sk,
                      completion_status := "error", error := some e,
                      error_traceback := some e })
    | (sk, st2, recs, none) =>
      let j2 := { j1 with scenarios := recs, final_skills := sk,
                          completion_status := "completed" }
      match generate_feedback_response env st2 with
      | (st3, .error e) =>
        (st3, { j2 with completion_status := "error", error := some e,
                        error_traceback := some e })
      | (st3, .ok fb) => (st3, { j2 with feedback := some fb })

/-- The participant loop of `run_simulation` (lines 311-314): every
journey is appended to `self.results`, whatever its status. -/
def runAll (env : Env) : List Persona → RunState → RunState × List Journey
  | [], st => (st, [])
  | p :: rest, st =>
    let r1 := simulate_full_journey env p st
    let r2 := runAll env rest r1.1
    (r2.1, r1.2 :: r2.2)

/-! ## Persistence (`save_results`, lines 326-333)

Modelled as the sequence of filesystem operations the method performs. -/

inductive FsOp where
  | makedirs (dir : String)
  | openTrunc (path : String)
  | writeFile (path : String) (data : String)
  | rename (src dst : String)
deriving DecidableEq

/-- A flat rendering standing for `json.dump` of one journey. -/
def serializeJourney (j : Journey) : String :=
  j.persona_id ++ "|" ++ j.persona_background ++ "|" ++ j.completion_status ++ "|" ++
    (j.error.getD "") ++ "|" ++ toString j.scenarios.length ++ "|" ++
    String.intercalate ";" (j.final_skills.map (fun p => p.1 ++ "=" ++ toString p.2))

def serializeResults (results : List Journey) : String :=
  String.intercalate "\n" (results.map serializeJourney)

/-- `MVPSimulator.save_results`: `os.makedirs(OUTPUT_DIR, exist_ok=True)`,
then `open(RESULTS_FILE, 'w')` (truncating the file in place) and one
`json.dump` into it.  No temporary file and no rename appears. -/
def save_results (results : List Journey) : List FsOp :=
  [FsOp.makedirs OUTPUT_DIR,
   FsOp.openTrunc RESULTS_FILE,
   FsOp.writeFile RESULTS_FILE (serializeResults results)]

/-- `MVPSimulator.run_simulation` (lines 299-324): run every journey,
then persist. -/
def run_simulation (env : Env) (roster : List Persona) (st : RunState) :
    List Journey × List FsOp :=
  let r := runAll env roster st
  (r.2, save_results r.2)

/-- `Modelled from the spec:` the persistence discipline §4.4 and claim C5
demand — "written to a temporary location and then renamed into place" —
stated as a predicate on an operation trace so the code's actual trace can
be compared against it.  It requires some temporary path distinct from the
final one that is written and then renamed onto the final path, with no
direct truncating open or write of the final path. -/
def atomicReplaceSpec (trace : List FsOp) (finalPath : String) : Prop :=
  ∃ tmp : String, tmp ≠ finalPath ∧
    (∃ d : String, FsOp.writeFile tmp d ∈ trace) ∧
    FsOp.rename tmp finalPath ∈ trace ∧
    FsOp.openTrunc finalPath ∉ trace ∧
    (∀ d : String, FsOp.writeFile finalPath d ∉ trace)

/-- Skill count read out of the association list (0 when absent, matching
a fresh key's absence from the dict). -/
def lookupD (k : String) (sk : Skills) : Nat := (alookup k sk).getD 0

/-- Per decision point of one scenario, the skill tag list of the option
chosen by the corresponding decision record. -/
def decisionSkillLists (dps : List DecisionPoint) (drs : List DecisionRecord) :
    List (List String) :=
  (dps.zip drs).map (fun q => ((alookup q.2.choice q.1.options).map Opt.skills).getD [])

/-- The skill tag lists of the options chosen by a journey's decision
records, recovered per decision point from the catalog, in decision
order. -/
def journeyChosenSkillLists (env : Env) (j : Journey) : List (List String) :=
  (env.scenarios_data.zip j.scenarios).flatMap (fun p =>
    decisionSkillLists p.1.decision_points p.2.decisions)

/-! ## Helper lemmas -/

theorem alookup_mem_keys {β : Type} {k : String} {v : β} :
    ∀ {l : List (String × β)}, alookup k l = some v → k ∈ keysOf l := by
  intro l
  induction l with
  | nil => intro h; simp [alookup] at h
  | cons hd tl ih =>
    intro h
    simp only [alookup] at h
    by_cases hk : k = hd.1
    · simp [keysOf, hk]
    · simp only [if_neg hk] at h
      simp [keysOf] at ih ⊢
      exact Or.inr (by simpa [keysOf] using ih h)

theorem mem_keys_alookup {β : Type} {k : String} :
    ∀ {l : List (String × β)}, k ∈ keysOf l → ∃ v, alookup k l = some v := by
  intro l
  induction l with
  | nil => intro h; simp [keysOf] at h
  | cons hd tl ih =>
    intro h
    by_cases hk : k = hd.1
    · exact ⟨hd.2, by simp [alookup, hk]⟩
    · have : k ∈ keysOf tl := by
        simp [keysOf] at h
        rcases h with h | h
        · exact absurd h hk
        · simpa [keysOf]
      rcases ih this with ⟨v, hv⟩
      exact ⟨v, by simp [alookup, hk, hv]⟩

theorem pyChoice_mem {l : List String} {r : Nat} {c : String}
    (h : pyChoice l r = some c) : c ∈ l := by
  unfold pyChoice at h
  exact List.get?_mem h

theorem pyChoice_isSome {l : List String} (r : Nat) (h : l ≠ []) :
    ∃ c, pyChoice l r = some c := by
  unfold pyChoice
  have hlen : 0 < l.length := List.length_pos.mpr h
  have hlt : r % l.length < l.length := Nat.mod_lt _ hlen
  rcases List.get?_eq_get hlt with h'
  exact ⟨_, h'⟩

/-- C1: the resolver step of `simulate_decision_point`.  Whenever the
agent call returns text and the decision point's option set is non-empty,
the produced `DecisionRecord` carries a choice that is a key of the legal
option set; if the extracted label was legal it is kept together with its
extracted reasoning, and otherwise the reasoning is overwritten with the
fixed parsing-error marker, making the substitution visible in the
record. -/
theorem c1_resolver_in_legal_set (env : Env) (dp : DecisionPoint) (st : RunState)
    (t : String) (hag : env.agent st.agentIdx = Except.ok t)
    (hne : dp.options ≠ []) :
    ∃ rec : DecisionRecord,
      (simulate_decision_point env dp st).2 = Except.ok rec ∧
      rec.choice ∈ keysOf dp.options ∧
      (∀ o, alookup (parse_decision_response (some t)).1 dp.options = some o →
        rec.choice = (parse_decision_response (some t)).1 ∧
        rec.reasoning = (parse_decision_response (some t)).2) ∧
      (alookup (parse_decision_response (some t)).1 dp.options = none →
        rec.reasoning = "Default choice due to parsing error") := by
  unfold simulate_decision_point
  simp only [hag]
  cases hpa : alookup (parse_decision_response (some t)).1 dp.options with
  | some o =>
    simp only [hpa]
    refine ⟨_, rfl, ?_, ?_, ?_⟩
    · exact alookup_mem_keys hpa
    · intro o' ho'; exact ⟨rfl, rfl⟩
    · intro hcon; exact Option.noConfusion hcon
  | none =>
    have hkeys : keysOf dp.options ≠ [] := by
      intro hk
      exact hne (by simpa [keysOf] using hk)
    rcases pyChoice_isSome (l := keysOf dp.options)
        (env.rng ({ st with agentIdx := st.agentIdx + 1 } : RunState).rngIdx) hkeys with ⟨c, hc⟩
    have hcm : c ∈ keysOf dp.options := pyChoice_mem hc
    rcases mem_keys_alookup hcm with ⟨o, ho⟩
    simp only [hpa, hc, ho]
    refine ⟨_, rfl, hcm, ?_, ?_⟩
    · intro o' ho'; exact Option.noConfusion ho'
    · intro _; rfl

/-- A two-option decision point used to exercise the resolver. -/
def c1Dp : DecisionPoint :=
  ⟨"d1", "What do you do?",
   [("A", ⟨"Speak up", ["warning_signs"], "good"⟩),
    ("B", ⟨"Walk away", [], "hmm"⟩)]⟩

/-- An environment whose agent answers every call with a well-formed
decision reply. -/
def c1Env : Env :=
  ⟨[], fun _ => Except.ok "CHOICE: A\nREASONING: sure", fun _ => 0⟩

/-- Witness for C1 at a concrete decision point and agent reply. -/
theorem c1_resolver_in_legal_set_witness :
    ∃ rec : DecisionRecord,
      (simulate_decision_point c1Env c1Dp ⟨0, 0⟩).2 = Except.ok rec ∧
      rec.choice ∈ keysOf c1Dp.options ∧
      (∀ o, alookup (parse_decision_response (some "CHOICE: A\nREASONING: sure")).1
          c1Dp.options = some o →
        rec.choice = (parse_decision_response (some "CHOICE: A\nREASONING: sure")).1 ∧
        rec.reasoning = (parse_decision_response (some "CHOICE: A\nREASONING: sure")).2) ∧
      (alookup (parse_decision_response (some "CHOICE: A\nREASONING: sure")).1
          c1Dp.options = none →
        rec.reasoning = "Default choice due to parsing error") :=
  c1_resolver_in_legal_set c1Env c1Dp ⟨0, 0⟩ "CHOICE: A\nREASONING: sure" rfl
    (by decide)

/-- Characterization of the five ratings produced by
`parse_feedback_response`. -/
theorem feedback_ratings_spec (s : String) :
    (parse_feedback_response (some s)).realistic
        = (if 5 ≤ (findRates s.data).length
           then digitVal ((findRates s.data).getD 0 '0') else 3) ∧
    (parse_feedback_response (some s)).felt_safe
        = (if 5 ≤ (findRates s.data).length
           then digitVal ((findRates s.data).getD 1 '0') else 3) ∧
    (parse_feedback_response (some s)).helpful_feedback
        = (if 5 ≤ (findRates s.data).length
           then digitVal ((findRates s.data).getD 2 '0') else 3) ∧
    (parse_feedback_response (some s)).would_recommend
        = (if 5 ≤ (findRates s.data).length
           then digitVal ((findRates s.data).getD 3 '0') else 3) ∧
    (parse_feedback_response (some s)).confidence
        = (if 5 ≤ (findRates s.data).length
           then digitVal ((findRates s.data).getD 4 '0') else 3) := by
  by_cases hs : s = ""
  · subst hs
    refine ⟨?_, ?_, ?_, ?_, ?_⟩ <;> rfl
  · simp only [parse_feedback_response, if_neg hs]
    by_cases hlen : 5 ≤ (findRates s.data).length
    · simp [if_pos hlen, initFeedback]
    · simp [if_neg hlen, initFeedback]

/-- C3: survey rating extraction is all-or-nothing.  For every input
text, each of the five ratings equals the positionally corresponding
`Rate: <digit>` match when the text yields at least five matches, and
stays at the default 3 otherwise (first match → realism, then safety,
feedback quality, recommendation, confidence). -/
theorem c3_survey_all_or_nothing (s : String) :
    (parse_feedback_response (some s)).realistic
        = (if 5 ≤ (findRates s.data).length
           then digitVal ((findRates s.data).getD 0 '0') else 3) ∧
    (parse_feedback_response (some s)).felt_safe
        = (if 5 ≤ (findRates s.data).length
           then digitVal ((findRates s.data).getD 1 '0') else 3) ∧
    (parse_feedback_response (some s)).helpful_feedback
        = (if 5 ≤ (findRates s.data).length
           then digitVal ((findRates s.data).getD 2 '0') else 3) ∧
    (parse_feedback_response (some s)).would_recommend
        = (if 5 ≤ (findRates s.data).length
           then digitVal ((findRates s.data).getD 3 '0') else 3) ∧
    (parse_feedback_response (some s)).confidence
        = (if 5 ≤ (findRates s.data).length
           then digitVal ((findRates s.data).getD 4 '0') else 3) :=
  feedback_ratings_spec s

/-- C7 counterexample: an input whose five `Rate:` markers carry the
digit 9 produces ratings outside the 1–5 domain the claim asserts. -/
theorem c7_counterexample :
    (parse_feedback_response
        (some "Rate: 9 Rate: 9 Rate: 9 Rate: 9 Rate: 9")).realistic = 9 ∧
    ¬ ((parse_feedback_response
        (some "Rate: 9 Rate: 9 Rate: 9 Rate: 9 Rate: 9")).realistic ≤ 5) := by
  refine ⟨by decide, by decide⟩

/-- Every character captured by the `Rate:` scanner satisfies the digit
class. -/
theorem mem_findRatesFuel_digit :
    ∀ (fuel : Nat) (l : List Char) (c : Char),
      c ∈ findRatesFuel fuel l → isDigitChar c = true := by
  intro fuel
  induction fuel with
  | zero => intro l c h; simp [findRatesFuel] at h
  | succ n ih =>
    intro l c h
    cases l with
    | nil => simp [findRatesFuel] at h
    | cons a rest =>
      simp only [findRatesFuel] at h
      by_cases hp : ciIsPrefix "Rate:".data (a :: rest) = true
      · simp only [if_pos hp] at h
        cases ht : ((a :: rest).drop 5).drop (wsRun ((a :: rest).drop 5)) with
        | nil => rw [ht] at h; exact ih rest c h
        | cons d t =>
          rw [ht] at h
          by_cases hd : isDigitChar d = true
          · simp only [if_pos hd] at h
            rcases List.mem_cons.mp h with h1 | h2
            · subst h1; exact hd
            · exact ih t c h2
          · simp only [if_neg hd] at h
            exact ih rest c h
      · simp only [if_neg hp] at h
        exact ih rest c h

/-- A digit character's value is at most 9. -/
theorem digitVal_le_nine {c : Char} (h : isDigitChar c = true) : digitVal c ≤ 9 := by
  unfold isDigitChar at h
  unfold digitVal
  simp only [Bool.and_eq_true, decide_eq_true_eq] at h
  have h0 : '0'.toNat = 48 := rfl
  rw [h0]
  omega

/-- Rating fields are digit values or the default 3, hence at most 9. -/
theorem rating_le_nine (rs : List Char)
    (hds : ∀ c ∈ rs, isDigitChar c = true) (i : Nat)
    (v : Nat) (hv : v = (if 5 ≤ rs.length then digitVal (rs.getD i '0') else 3))
    (hi : i < 5) : v ≤ 9 := by
  subst hv
  by_cases hlen : 5 ≤ rs.length
  · simp only [if_pos hlen]
    have hlt : i < rs.length := by omega
    have hmem : rs.getD i '0' ∈ rs := by
      rw [List.getD_eq_getElem rs '0' hlt]
      exact List.getElem_mem hlt
    exact digitVal_le_nine (hds _ hmem)
  · simp only [if_neg hlen]
    omega

/-- C7 amended: each of the five ratings is a single decimal digit value
(at most 9) whenever five matches are found, and the default 3 otherwise;
the parser does not restrict the digit to the announced 1–5 domain. -/
theorem c7_ratings_digit_domain (s : String) :
    (parse_feedback_response (some s)).realistic ≤ 9 ∧
    (parse_feedback_response (some s)).felt_safe ≤ 9 ∧
    (parse_feedback_response (some s)).helpful_feedback ≤ 9 ∧
    (parse_feedback_response (some s)).would_recommend ≤ 9 ∧
    (parse_feedback_response (some s)).confidence ≤ 9 := by
  have hspec := feedback_ratings_spec s
  have hds : ∀ c ∈ findRates s.data, isDigitChar c = true := by
    intro c hc
    exact mem_findRatesFuel_digit _ _ _ hc
  refine ⟨?_, ?_, ?_, ?_, ?_⟩
  · exact rating_le_nine _ hds 0 _ hspec.1 (by omega)
  · exact rating_le_nine _ hds 1 _ hspec.2.1 (by omega)
  · exact rating_le_nine _ hds 2 _ hspec.2.2.1 (by omega)
  · exact rating_le_nine _ hds 3 _ hspec.2.2.2.1 (by omega)
  · exact rating_le_nine _ hds 4 _ hspec.2.2.2.2 (by omega)

/-- The fixed legal-label alphabet of the decision extractor, in the
order of the character class `[A-D]` (utils.py lines 42 and 49). -/
def decisionLegalLabels : List String := ["A", "B", "C", "D"]

/-- A character is determined by its code point. -/
theorem char_eq_of_toNat {c : Char} {n : Nat} (h : c.toNat = n) :
    c = Char.ofNat n := by
  rw [← h, Char.ofNat_toNat]

/-- Upper-casing a (case-insensitive) legal label lands in the fixed
label alphabet. -/
theorem upper_label_mem {c : Char} (h : isLabelCI c = true) :
    String.mk [upperChar c] ∈ decisionLegalLabels := by
  unfold isLabelCI at h
  simp only [Bool.or_eq_true, Bool.and_eq_true, decide_eq_true_eq] at h
  have hcases : c.toNat = 65 ∨ c.toNat = 66 ∨ c.toNat = 67 ∨ c.toNat = 68 ∨
      c.toNat = 97 ∨ c.toNat = 98 ∨ c.toNat = 99 ∨ c.toNat = 100 := by omega
  rcases hcases with h | h | h | h | h | h | h | h <;>
    rw [char_eq_of_toNat h] <;> decide

/-- The `CHOICE:` label scanner only ever captures a legal-class
character. -/
theorem findDecisionChoice_label :
    ∀ {l : List Char} {c : Char},
      findDecisionChoice l = some c → isLabelCI c = true := by
  intro l
  induction l with
  | nil => intro c h; simp [findDecisionChoice] at h
  | cons a rest ih =>
    intro c h
    simp only [findDecisionChoice] at h
    split at h
    · split at h
      · split at h
        · cases h; assumption
        · exact ih h
      · exact ih h
    · exact ih h

/-- The line-start fallback scanner only ever captures an uppercase
`A`–`D`. -/
theorem findLineStartLabel_label :
    ∀ {l : List Char} {b : Bool} {c : Char},
      findLineStartLabel b l = some c → 65 ≤ c.toNat ∧ c.toNat ≤ 68 := by
  intro l
  induction l with
  | nil => intro b c h; cases b <;> simp [findLineStartLabel] at h
  | cons a rest ih =>
    intro b c h
    simp only [findLineStartLabel] at h
    split at h
    · split at h
      · split at h
        · rename_i hcond
          cases h
          simp only [Bool.and_eq_true, decide_eq_true_eq] at hcond
          exact ⟨hcond.1.1, hcond.1.2⟩
        · exact ih h
      · exact Option.noConfusion h
    · exact ih h

/-- An uppercase `A`–`D` code point satisfies the case-insensitive label
class. -/
theorem label_of_upper_range {c : Char} (h1 : 65 ≤ c.toNat)
    (h2 : c.toNat ≤ 68) : isLabelCI c = true := by
  unfold isLabelCI
  simp only [Bool.or_eq_true, Bool.and_eq_true, decide_eq_true_eq]
  omega

/-- C4: when the decision extractor finds no recognizable marker — no
`CHOICE:` marker carrying a legal-alphabet character, and no legal label
at the start of a line followed by a separator — it deterministically
returns the first label of the legal-label alphabet. -/
theorem c4_default_first_label (s : String)
    (h1 : findDecisionChoice s.data = none)
    (h2 : findLineStartLabel true s.data = none) :
    (parse_decision_response (some s)).1 = "A" ∧
    decisionLegalLabels.head? = some "A" := by
  refine ⟨?_, rfl⟩
  by_cases hs : s = ""
  · subst hs; rfl
  · simp only [parse_decision_response, if_neg hs, h1, h2]

/-- Witness for C4 on a marker-free text. -/
theorem c4_default_first_label_witness :
    (parse_decision_response (some "I think option two is best")).1 = "A" ∧
    decisionLegalLabels.head? = some "A" :=
  c4_default_first_label "I think option two is best" (by decide) (by decide)

/-- C9: every extractor is total with explicit defaults — `None` and the
empty (falsy) input produce the documented default records — and the
decision extractor's label always lies in the legal alphabet, for every
input whatsoever. -/
theorem c9_extractors_total :
    parse_character_selection none
        = ("Alex Chen", "Default selection due to invalid response") ∧
    parse_character_selection (some "")
        = ("Alex Chen", "Default selection due to invalid response") ∧
    parse_decision_response none = ("A", "Default choice due to invalid response") ∧
    parse_decision_response (some "") = ("A", "Default choice due to invalid response") ∧
    parse_feedback_response none = initFeedback "" ∧
    parse_feedback_response (some "") = initFeedback "" ∧
    (∀ inp : Option String, (parse_decision_response inp).1 ∈ decisionLegalLabels) := by
  refine ⟨rfl, by decide, rfl, by decide, rfl, by decide, ?_⟩
  intro inp
  cases inp with
  | none => decide
  | some s =>
    by_cases hs : s = ""
    · subst hs; decide
    · simp only [parse_decision_response, if_neg hs]
      cases hfd : findDecisionChoice s.data with
      | some c =>
        simpa using upper_label_mem (findDecisionChoice_label hfd)
      | none =>
        cases hfb : findLineStartLabel true s.data with
        | some c =>
          have hr := findLineStartLabel_label hfb
          simpa using upper_label_mem (label_of_upper_range hr.1 hr.2)
        | none => simp [decisionLegalLabels]

/-- C6 counterexample: on the input `"CHOICE: Bob"` the marker is found
but matches no roster name under the case-insensitive substring test, yet
the extractor returns the raw text `"Bob"` instead of the canonical
default character claimed by the spec. -/
theorem c6_counterexample :
    (parse_character_selection (some "CHOICE: Bob")).1 = "Bob" ∧
    validCharacters.all (fun n => ! isSubstrCI n.data "Bob".data) = true ∧
    (parse_character_selection (some "CHOICE: Bob")).1 ≠ "Alex Chen" :=
  ⟨by decide, by decide, by decide⟩

/-- The roster loop is the first case-insensitive substring match over
the roster, falling back to the scanned text itself. -/
theorem rosterLoop_find (l : List String) (c : String) :
    rosterLoop l c = (l.find? (fun n => isSubstrCI n.data c.data)).getD c := by
  induction l with
  | nil => rfl
  | cons hd tl ih =>
    cases hc : isSubstrCI hd.data c.data with
    | true => simp [rosterLoop, List.find?, hc]
    | false => simp [rosterLoop, List.find?, hc, ih]

/-- C6 amended: the canonical default character is returned only when no
`CHOICE:` marker is found at all; when a marker is found, its stripped
text is fuzzy-matched against the roster and, if no roster name is a
case-insensitive substring of it, the raw stripped text itself is
returned as the character name (the reasoning default is independent and
governed solely by the `REASONING:` marker). -/
theorem c6_character_fallthrough (s c : String) (hs : s ≠ "") :
    (parse_character_selection (some s)).1 =
      (match findCharChoice s.data with
       | none => "Alex Chen"
       | some g => rosterLoop validCharacters (String.mk (pyStrip g))) ∧
    rosterLoop validCharacters c =
      (validCharacters.find? (fun n => isSubstrCI n.data c.data)).getD c ∧
    (parse_character_selection (some s)).2 =
      (match findReasoning s.data with
       | none => "Selected based on background"
       | some g => String.mk (pyStrip g)) := by
  refine ⟨?_, rosterLoop_find validCharacters c, ?_⟩
  · simp only [parse_character_selection, if_neg hs]
    cases findCharChoice s.data <;> rfl
  · simp only [parse_character_selection, if_neg hs]
    cases findReasoning s.data <;> rfl

/-- Witness for C6's amended behavior at the counterexample input. -/
theorem c6_character_fallthrough_witness :
    (parse_character_selection (some "CHOICE: Bob")).1 =
      (match findCharChoice "CHOICE: Bob".data with
       | none => "Alex Chen"
       | some g => rosterLoop validCharacters (String.mk (pyStrip g))) ∧
    rosterLoop validCharacters "Bob" =
      (validCharacters.find? (fun n => isSubstrCI n.data "Bob".data)).getD "Bob" ∧
    (parse_character_selection (some "CHOICE: Bob")).2 =
      (match findReasoning "CHOICE: Bob".data with
       | none => "Selected based on background"
       | some g => String.mk (pyStrip g)) :=
  c6_character_fallthrough "CHOICE: Bob" "Bob" (by decide)

/-- C5 counterexample: the persistence trace of `save_results` does not
perform an atomic replace — it contains no rename at all and writes the
results file directly. -/
theorem c5_counterexample : ¬ atomicReplaceSpec (save_results []) RESULTS_FILE := by
  rintro ⟨tmp, hne, hw, hren, hot, hwf⟩
  simp [save_results, atomicReplaceSpec] at hren

/-- C5 amended: at run end the full result set is persisted by a single
direct in-place write — create the output directory, open the results
file truncating it, write the whole serialization — with no temporary
file and no rename anywhere in the trace. -/
theorem c5_direct_write (results : List Journey) (env : Env)
    (roster : List Persona) (st : RunState) :
    save_results results =
      [FsOp.makedirs OUTPUT_DIR, FsOp.openTrunc RESULTS_FILE,
       FsOp.writeFile RESULTS_FILE (serializeResults results)] ∧
    (run_simulation env roster st).2 = save_results (run_simulation env roster st).1 ∧
    (∀ src dst, FsOp.rename src dst ∉ save_results results) := by
  refine ⟨rfl, rfl, ?_⟩
  intro src dst hmem
  simp [save_results] at hmem

/-- A scenario record produced by the decision-point loop carries the
duration drawn before the loop started. -/
theorem scenarioGo_time (env : Env) (sc : Scenario) (time : Nat) :
    ∀ (dps : List DecisionPoint) (sk : Skills) (st : RunState)
      (recs : List DecisionRecord) (earned : List String) (r : ScenarioRecord),
      (scenarioGo env sc time dps sk st recs earned).2.2 = Except.ok r →
      r.time_spent_seconds = time := by
  intro dps
  induction dps with
  | nil =>
    intro sk st recs earned r h
    simp only [scenarioGo] at h
    cases h
    rfl
  | cons dp rest ih =>
    intro sk st recs earned r h
    simp only [scenarioGo] at h
    split at h
    · exact Except.noConfusion h
    · split at h
      · exact Except.noConfusion h
      · split at h
        · exact Except.noConfusion h
        · exact ih _ _ _ _ _ h

/-- The decision-point step never rewinds the random stream. -/
theorem simulate_decision_point_rngIdx (env : Env) (dp : DecisionPoint)
    (st : RunState) :
    st.rngIdx ≤ (simulate_decision_point env dp st).1.rngIdx := by
  unfold simulate_decision_point
  split
  · exact Nat.le_refl _
  · dsimp only
    split
    · exact Nat.le_refl _
    · split
      · exact Nat.le_succ _
      · split
        · exact Nat.le_succ _
        · exact Nat.le_succ _

/-- The decision-point loop never rewinds the random stream. -/
theorem scenarioGo_rngIdx (env : Env) (sc : Scenario) (time : Nat) :
    ∀ (dps : List DecisionPoint) (sk : Skills) (st : RunState)
      (recs : List DecisionRecord) (earned : List String),
      st.rngIdx ≤ (scenarioGo env sc time dps sk st recs earned).2.1.rngIdx := by
  intro dps
  induction dps with
  | nil => intro sk st recs earned; exact Nat.le_refl _
  | cons dp rest ih =>
    intro sk st recs earned
    simp only [scenarioGo]
    have hstep := simulate_decision_point_rngIdx env dp st
    split
    · rename_i st' e heq
      have : (simulate_decision_point env dp st).1 = st' := by rw [heq]
      rw [this] at hstep
      exact hstep
    · rename_i st' rec heq
      have h1 : (simulate_decision_point env dp st).1 = st' := by rw [heq]
      rw [h1] at hstep
      split
      · exact hstep
      · split
        · exact hstep
        · exact Nat.le_trans hstep (ih _ _ _ _)

/-- The synthetic duration is inclusive on both bounds. -/
theorem randint_bounds (r : Nat) :
    180 ≤ randint 180 420 r ∧ randint 180 420 r ≤ 420 := by
  unfold randint
  have h : r % (420 + 1 - 180) < 241 := Nat.mod_lt _ (by norm_num)
  omega

/-- C10: every scenario record carries a synthetic elapsed time between
180 and 420 seconds inclusive, equal to `randint 180 420` applied to the
stream draw at the scenario's own index — a fresh draw consumed by this
scenario (the output stream position strictly exceeds the input one). -/
theorem c10_scenario_time_bounds (env : Env) (sc : Scenario) (sk : Skills)
    (st : RunState) (r : ScenarioRecord)
    (h : (simulate_scenario env sc sk st).2.2 = Except.ok r) :
    180 ≤ r.time_spent_seconds ∧ r.time_spent_seconds ≤ 420 ∧
    r.time_spent_seconds = randint 180 420 (env.rng st.rngIdx) ∧
    st.rngIdx + 1 ≤ (simulate_scenario env sc sk st).2.1.rngIdx := by
  have htime : r.time_spent_seconds = randint 180 420 (env.rng st.rngIdx) :=
    scenarioGo_time env sc _ sc.decision_points sk _ [] [] r h
  have hb := randint_bounds (env.rng st.rngIdx)
  refine ⟨by omega, by omega, htime, ?_⟩
  have := scenarioGo_rngIdx env sc (randint 180 420 (env.rng st.rngIdx))
    sc.decision_points sk { st with rngIdx := st.rngIdx + 1 } [] []
  exact this

/-- A one-decision scenario for the C10 witness. -/
def c10Sc : Scenario :=
  ⟨"s1", "Party", "ctx",
   [⟨"d1", "q", [("A", ⟨"t", ["warning_signs"], "fb"⟩)]⟩]⟩

/-- Environment whose agent always answers a legal decision reply. -/
def c10Env : Env :=
  ⟨[c10Sc], fun _ => Except.ok "CHOICE: A\nREASONING: ok", fun n => n * 7⟩

/-- Witness for C10 at a concrete scenario run. -/
theorem c10_scenario_time_bounds_witness :
    ∃ r : ScenarioRecord,
      (simulate_scenario c10Env c10Sc initSkills ⟨0, 0⟩).2.2 = Except.ok r ∧
      180 ≤ r.time_spent_seconds ∧ r.time_spent_seconds ≤ 420 ∧
      r.time_spent_seconds = randint 180 420 (c10Env.rng 0) ∧
      0 + 1 ≤ (simulate_scenario c10Env c10Sc initSkills ⟨0, 0⟩).2.1.rngIdx := by
  refine ⟨⟨"s1", "Party",
    [⟨"d1", "A", "t", "ok", "fb"⟩], ["warning_signs"], 180⟩, by rfl, ?_⟩
  have := c10_scenario_time_bounds c10Env c10Sc initSkills ⟨0, 0⟩
    ⟨"s1", "Party", [⟨"d1", "A", "t", "ok", "fb"⟩], ["warning_signs"], 180⟩
    (by rfl)
  exact this

/-- If the first `k` scenarios run clean and scenario `k` then raises,
the whole scenario loop stops with that error, and the scenario records
accumulated in the journey are exactly those of the clean prefix. -/
theorem runScenarios_take_fault (env : Env) :
    ∀ (k : Nat) (l : List Scenario) (sk : Skills) (st : RunState)
      (sk1 : Skills) (st1 : RunState) (recs : List ScenarioRecord) (e : String)
      (hk : k < l.length),
      runScenarios env (l.take k) sk st = (sk1, st1, recs, none) →
      (simulate_scenario env (l.get ⟨k, hk⟩) sk1 st1).2.2 = Except.error e →
      ∃ sk2 st2, runScenarios env l sk st = (sk2, st2, recs, some e) := by
  intro k
  induction k with
  | zero =>
    intro l sk st sk1 st1 recs e hk hpre hf
    cases l with
    | nil => simp at hk
    | cons a rest =>
      simp only [List.take_zero, runScenarios] at hpre
      cases hpre
      simp only [List.get] at hf
      simp only [runScenarios]
      rcases hsc : simulate_scenario env a sk st with ⟨sk2, st2, res⟩
      rw [hsc] at hf
      simp only at hf
      cases res with
      | error e' => cases hf; exact ⟨sk2, st2, rfl⟩
      | ok r => exact Except.noConfusion hf
  | succ n ih =>
    intro l sk st sk1 st1 recs e hk hpre hf
    cases l with
    | nil => simp at hk
    | cons a rest =>
      simp only [List.take_succ_cons, runScenarios] at hpre
      rcases hsc : simulate_scenario env a sk st with ⟨ska, sta, resa⟩
      rw [hsc] at hpre
      cases resa with
      | error e' => simp only at hpre; cases hpre
      | ok r =>
        simp only at hpre
        rcases hrest : runScenarios env (rest.take n) ska sta with
          ⟨skb, stb, recsb, errb⟩
        rw [hrest] at hpre
        cases hpre
        have hk' : n < rest.length := by simpa using hk
        have hget : (a :: rest).get ⟨n + 1, hk⟩ = rest.get ⟨n, hk'⟩ := rfl
        rw [hget] at hf
        rcases ih rest ska sta skb stb recsb e hk' hrest hf with ⟨sk2, st2, hrun⟩
        refine ⟨sk2, st2, ?_⟩
        simp only [runScenarios, hsc, hrun]

/-- Every participant in the roster contributes exactly one journey
record to the results, whatever each journey's outcome. -/
theorem runAll_length (env : Env) :
    ∀ (roster : List Persona) (st : RunState),
      (runAll env roster st).2.length = roster.length := by
  intro roster
  induction roster with
  | nil => intro st; rfl
  | cons p rest ih => intro st; simp [runAll, ih]

/-- The runner processes a roster segment by segment: an error inside the
first segment never prevents the second segment from being processed. -/
theorem runAll_append (env : Env) :
    ∀ (r1 r2 : List Persona) (st : RunState),
      (runAll env (r1 ++ r2) st).2 =
        (runAll env r1 st).2 ++ (runAll env r2 (runAll env r1 st).1).2 := by
  intro r1
  induction r1 with
  | nil => intro r2 st; rfl
  | cons p rest ih => intro r2 st; simp [runAll, ih]

/-- C2: a fault at any step of a journey — the character-selection call,
any scenario's traversal after a clean prefix, or the closing survey call
(which overwrites the already-set `completed` status) — still yields the
participant's journey record with completion status `error`, the
triggering error captured in both error fields, and everything recorded
into the journey before the fault (character selection, clean-prefix
scenario records, accrued skills) preserved; and the runner still emits
exactly one record per participant, processing the rest of the roster. -/
theorem c2_journey_error_isolation (env : Env) (p : Persona) (st : RunState) :
    (∀ e : String, env.agent st.agentIdx = Except.error e →
      (simulate_full_journey env p st).2.completion_status = "error" ∧
      (simulate_full_journey env p st).2.error = some e ∧
      (simulate_full_journey env p st).2.error_traceback = some e ∧
      (simulate_full_journey env p st).2.scenarios = [] ∧
      (simulate_full_journey env p st).2.persona_id = p.name) ∧
    (∀ (t : String) (k : Nat) (e : String) (sk1 : Skills) (st1 : RunState)
       (recs : List ScenarioRecord) (hk : k < env.scenarios_data.length),
      env.agent st.agentIdx = Except.ok t →
      runScenarios env (env.scenarios_data.take k) initSkills
          { st with agentIdx := st.agentIdx + 1 } = (sk1, st1, recs, none) →
      (simulate_scenario env (env.scenarios_data.get ⟨k, hk⟩) sk1 st1).2.2
          = Except.error e →
      (simulate_full_journey env p st).2.completion_status = "error" ∧
      (simulate_full_journey env p st).2.error = some e ∧
      (simulate_full_journey env p st).2.error_traceback = some e ∧
      (simulate_full_journey env p st).2.scenarios = recs ∧
      (simulate_full_journey env p st).2.character_selection =
        some ⟨(parse_character_selection (some t)).1,
              (parse_character_selection (some t)).2⟩ ∧
      (simulate_full_journey env p st).2.persona_id = p.name) ∧
    (∀ (t : String) (e : String) (sk1 : Skills) (st1 : RunState)
       (recs : List ScenarioRecord),
      env.agent st.agentIdx = Except.ok t →
      runScenarios env env.scenarios_data initSkills
          { st with agentIdx := st.agentIdx + 1 } = (sk1, st1, recs, none) →
      env.agent st1.agentIdx = Except.error e →
      (simulate_full_journey env p st).2.completion_status = "error" ∧
      (simulate_full_journey env p st).2.error = some e ∧
      (simulate_full_journey env p st).2.error_traceback = some e ∧
      (simulate_full_journey env p st).2.scenarios = recs ∧
      (simulate_full_journey env p st).2.final_skills = sk1 ∧
      (simulate_full_journey env p st).2.character_selection =
        some ⟨(parse_character_selection (some t)).1,
              (parse_character_selection (some t)).2⟩ ∧
      (simulate_full_journey env p st).2.persona_id = p.name) ∧
    (∀ (roster : List Persona) (st0 : RunState),
      (runAll env roster st0).2.length = roster.length) ∧
    (∀ (r1 r2 : List Persona) (st0 : RunState),
      (runAll env (r1 ++ r2) st0).2 =
        (runAll env r1 st0).2 ++ (runAll env r2 (runAll env r1 st0).1).2) := by
  refine ⟨?_, ?_, ?_, runAll_length env, runAll_append env⟩
  · intro e hag
    have hj : (simulate_full_journey env p st).2 =
        { persona_id := p.name
          persona_background := p.background
          character_selection := none
          scenarios := []
          final_skills := initSkills
          feedback := none
          completion_status := "error"
          error := some e
          error_traceback := some e } := by
      unfold simulate_full_journey simulate_character_selection
      rw [hag]
    rw [hj]
    exact ⟨rfl, rfl, rfl, rfl, rfl⟩
  · intro t k e sk1 st1 recs hk hchar hpre hfault
    rcases runScenarios_take_fault env k env.scenarios_data initSkills
        { st with agentIdx := st.agentIdx + 1 } sk1 st1 recs e hk hpre hfault with
      ⟨sk2, st2, hrun⟩
    have hj : simulate_full_journey env p st =
        (st2,
         { persona_id := p.name
           persona_background := p.background
           character_selection :=
             some ⟨(parse_character_selection (some t)).1,
                   (parse_character_selection (some t)).2⟩
           scenarios := recs
           final_skills := sk2
           feedback := none
           completion_status := "error"
           error := some e
           error_traceback := some e }) := by
      unfold simulate_full_journey simulate_character_selection
      rw [hchar]
      simp only [hrun]
    rw [hj]
    exact ⟨rfl, rfl, rfl, rfl, rfl, rfl⟩
  · intro t e sk1 st1 recs hchar hrs hfb
    have hj : simulate_full_journey env p st =
        ({ st1 with agentIdx := st1.agentIdx + 1 },
         { persona_id := p.name
           persona_background := p.background
           character_selection :=
             some ⟨(parse_character_selection (some t)).1,
                   (parse_character_selection (some t)).2⟩
           scenarios := recs
           final_skills := sk1
           feedback := none
           completion_status := "error"
           error := some e
           error_traceback := some e }) := by
      unfold simulate_full_journey simulate_character_selection
        generate_feedback_response
      rw [hchar]
      simp only [hrs, hfb]
    rw [hj]
    exact ⟨rfl, rfl, rfl, rfl, rfl, rfl, rfl⟩

/-- First scenario of the C2 witness catalog. -/
def c2ScA : Scenario :=
  ⟨"sA", "First", "ctxA", [⟨"dA", "q", [("A", ⟨"tA", ["warning_signs"], "fbA"⟩)]⟩]⟩

/-- Second scenario of the C2 witness catalog; its agent call raises. -/
def c2ScB : Scenario :=
  ⟨"sB", "Second", "ctxB", [⟨"dB", "q", [("A", ⟨"tB", [], "fbB"⟩)]⟩]⟩

/-- Scripted agent: clean character selection and first scenario, then an
exception on every later call. -/
def c2Agent : Nat → Except String String
  | 0 => .ok "CHOICE: Alex Chen\nREASONING: fine"
  | 1 => .ok "CHOICE: A\nREASONING: yes"
  | _ => .error "APIError: boom"

def c2Env : Env := ⟨[c2ScA, c2ScB], c2Agent, fun _ => 0⟩

/-- The clean prefix skills reached before the C2 witness fault. -/
def c2Sk1 : Skills :=
  [("warning_signs", 1), ("direct_intervention", 0), ("distraction", 0),
   ("support_survivor", 0), ("know_resources", 0)]

/-- The scenario records recorded before the C2 witness fault. -/
def c2Recs : List ScenarioRecord :=
  [⟨"sA", "First", [⟨"dA", "A", "tA", "yes", "fbA"⟩], ["warning_signs"], 180⟩]

/-- Environment whose very first agent call — the character selection —
raises. -/
def c2EnvA : Env :=
  ⟨[c2ScA, c2ScB], fun _ => Except.error "ConnError: down", fun _ => 0⟩

/-- Scripted agent for the survey-fault case: clean character selection
and single scenario, then an exception on the survey call. -/
def c2AgentC : Nat → Except String String
  | 0 => .ok "CHOICE: Alex Chen\nREASONING: fine"
  | 1 => .ok "CHOICE: A\nREASONING: yes"
  | _ => .error "APIError: survey down"

def c2EnvC : Env := ⟨[c2ScA], c2AgentC, fun _ => 0⟩

/-- Witness for C2 covering all three fault sites: a character-selection
fault, a fault in the second of two scenarios (first scenario's record
and skills preserved), and a survey fault after a fully clean catalog
(every scenario record and the final skills preserved, the `completed`
status overwritten with `error`). -/
theorem c2_journey_error_isolation_witness :
    ((simulate_full_journey c2EnvA ⟨"p0", "bg"⟩ ⟨0, 0⟩).2.completion_status
        = "error" ∧
      (simulate_full_journey c2EnvA ⟨"p0", "bg"⟩ ⟨0, 0⟩).2.error
        = some "ConnError: down" ∧
      (simulate_full_journey c2EnvA ⟨"p0", "bg"⟩ ⟨0, 0⟩).2.error_traceback
        = some "ConnError: down" ∧
      (simulate_full_journey c2EnvA ⟨"p0", "bg"⟩ ⟨0, 0⟩).2.scenarios = [] ∧
      (simulate_full_journey c2EnvA ⟨"p0", "bg"⟩ ⟨0, 0⟩).2.persona_id = "p0") ∧
    ((simulate_full_journey c2Env ⟨"p1", "bg"⟩ ⟨0, 0⟩).2.completion_status
        = "error" ∧
      (simulate_full_journey c2Env ⟨"p1", "bg"⟩ ⟨0, 0⟩).2.error
        = some "APIError: boom" ∧
      (simulate_full_journey c2Env ⟨"p1", "bg"⟩ ⟨0, 0⟩).2.error_traceback
        = some "APIError: boom" ∧
      (simulate_full_journey c2Env ⟨"p1", "bg"⟩ ⟨0, 0⟩).2.scenarios = c2Recs ∧
      (simulate_full_journey c2Env ⟨"p1", "bg"⟩ ⟨0, 0⟩).2.character_selection =
        some ⟨(parse_character_selection
                (some "CHOICE: Alex Chen\nREASONING: fine")).1,
              (parse_character_selection
                (some "CHOICE: Alex Chen\nREASONING: fine")).2⟩ ∧
      (simulate_full_journey c2Env ⟨"p1", "bg"⟩ ⟨0, 0⟩).2.persona_id = "p1") ∧
    ((simulate_full_journey c2EnvC ⟨"p2", "bg"⟩ ⟨0, 0⟩).2.completion_status
        = "error" ∧
      (simulate_full_journey c2EnvC ⟨"p2", "bg"⟩ ⟨0, 0⟩).2.error
        = some "APIError: survey down" ∧
      (simulate_full_journey c2EnvC ⟨"p2", "bg"⟩ ⟨0, 0⟩).2.error_traceback
        = some "APIError: survey down" ∧
      (simulate_full_journey c2EnvC ⟨"p2", "bg"⟩ ⟨0, 0⟩).2.scenarios = c2Recs ∧
      (simulate_full_journey c2EnvC ⟨"p2", "bg"⟩ ⟨0, 0⟩).2.final_skills = c2Sk1 ∧
      (simulate_full_journey c2EnvC ⟨"p2", "bg"⟩ ⟨0, 0⟩).2.character_selection =
        some ⟨(parse_character_selection
                (some "CHOICE: Alex Chen\nREASONING: fine")).1,
              (parse_character_selection
                (some "CHOICE: Alex Chen\nREASONING: fine")).2⟩ ∧
      (simulate_full_journey c2EnvC ⟨"p2", "bg"⟩ ⟨0, 0⟩).2.persona_id = "p2") ∧
    (∀ (roster : List Persona) (st0 : RunState),
      (runAll c2Env roster st0).2.length = roster.length) ∧
    (∀ (r1 r2 : List Persona) (st0 : RunState),
      (runAll c2Env (r1 ++ r2) st0).2 =
        (runAll c2Env r1 st0).2 ++ (runAll c2Env r2 (runAll c2Env r1 st0).1).2) :=
  ⟨(c2_journey_error_isolation c2EnvA ⟨"p0", "bg"⟩ ⟨0, 0⟩).1
      "ConnError: down" rfl,
   (c2_journey_error_isolation c2Env ⟨"p1", "bg"⟩ ⟨0, 0⟩).2.1
      "CHOICE: Alex Chen\nREASONING: fine" 1 "APIError: boom" c2Sk1 ⟨2, 1⟩ c2Recs
      (by decide) rfl (by rfl) (by rfl),
   (c2_journey_error_isolation c2EnvC ⟨"p2", "bg"⟩ ⟨0, 0⟩).2.2.1
      "CHOICE: Alex Chen\nREASONING: fine" "APIError: survey down" c2Sk1 ⟨2, 1⟩
      c2Recs rfl (by rfl) rfl,
   (c2_journey_error_isolation c2Env ⟨"p1", "bg"⟩ ⟨0, 0⟩).2.2.2.1,
   (c2_journey_error_isolation c2Env ⟨"p1", "bg"⟩ ⟨0, 0⟩).2.2.2.2⟩

/-- Incrementing one existing key raises exactly that key's count by one
and leaves every other count unchanged. -/
theorem bump_lookup (k : String) :
    ∀ (sk sk' : Skills), bump k sk = some sk' →
      ∀ key, lookupD key sk' = lookupD key sk + (if key = k then 1 else 0) := by
  intro sk
  induction sk with
  | nil => intro sk' h; exact Option.noConfusion h
  | cons hd tl ih =>
    intro sk' h key
    rcases hd with ⟨k', v⟩
    simp only [bump] at h
    by_cases hk : k = k'
    · rw [if_pos hk] at h
      cases h
      subst hk
      by_cases hkey : key = k
      · simp [lookupD, alookup, hkey]
      · simp [lookupD, alookup, hkey]
    · rw [if_neg hk] at h
      cases hrec : bump k tl with
      | none => rw [hrec] at h; exact Option.noConfusion h
      | some tl' =>
        rw [hrec] at h
        cases h
        by_cases hkey : key = k'
        · have hkk : ¬ key = k := fun hh => hk (hh ▸ hkey)
          have hk' : ¬ k' = k := fun hh => hk hh.symm
          simp [lookupD, alookup, hkey, hkk, hk']
        · simp only [lookupD, alookup, if_neg hkey]
          exact ih tl' hrec key

/-- A clean accrual adds, for every key, the number of occurrences of
that key among the accrued tags. -/
theorem accrue_count :
    ∀ (tags : List String) (sk : Skills) (earned : List String)
      (sk' : Skills) (earned' : List String),
      accrue tags sk earned = (sk', earned', none) →
      ∀ key, lookupD key sk' = lookupD key sk + tags.count key := by
  intro tags
  induction tags with
  | nil =>
    intro sk earned sk' earned' h key
    simp only [accrue] at h
    cases h
    simp
  | cons t ts ih =>
    intro sk earned sk' earned' h key
    simp only [accrue] at h
    cases hb : bump t sk with
    | none => rw [hb] at h; simp only at h; cases h
    | some sk1 =>
      rw [hb] at h
      simp only at h
      have h1 := ih sk1 _ sk' earned' h key
      have h2 := bump_lookup t sk sk1 hb key
      rw [h1, h2, List.count_cons]
      simp only [beq_iff_eq]
      by_cases hkey : key = t
      · subst hkey
        rw [if_pos rfl]
        omega
      · have hne : ¬ t = key := fun hh => hkey hh.symm
        rw [if_neg hkey, if_neg hne]
        omega

/-- Accrual never decreases any skill count, clean or faulting. -/
theorem accrue_mono :
    ∀ (tags : List String) (sk : Skills) (earned : List String) (key : String),
      lookupD key sk ≤ lookupD key (accrue tags sk earned).1 := by
  intro tags
  induction tags with
  | nil => intro sk earned key; exact Nat.le_refl _
  | cons t ts ih =>
    intro sk earned key
    simp only [accrue]
    cases hb : bump t sk with
    | none => exact Nat.le_refl _
    | some sk1 =>
      dsimp only
      have h2 := bump_lookup t sk sk1 hb key
      have h3 := ih sk1 (if earned.contains t then earned else earned ++ [t]) key
      by_cases hkey : key = t
      · rw [if_pos hkey] at h2; omega
      · rw [if_neg hkey] at h2; omega

/-- One decision unfolding of `decisionSkillLists`. -/
theorem decisionSkillLists_cons (dp : DecisionPoint) (rest : List DecisionPoint)
    (r : DecisionRecord) (rs : List DecisionRecord) :
    decisionSkillLists (dp :: rest) (r :: rs) =
      ((alookup r.choice dp.options).map Opt.skills).getD [] ::
        decisionSkillLists rest rs := rfl

/-- A clean decision-point loop extends the record list in order and
adds, for every key, its occurrences among the chosen options' tags. -/
theorem scenarioGo_skills (env : Env) (sc : Scenario) (time : Nat) :
    ∀ (dps : List DecisionPoint) (sk : Skills) (st : RunState)
      (recs : List DecisionRecord) (earned : List String)
      (sk' : Skills) (st' : RunState) (r : ScenarioRecord),
      scenarioGo env sc time dps sk st recs earned = (sk', st', Except.ok r) →
      ∃ newRecs, r.decisions = recs ++ newRecs ∧ newRecs.length = dps.length ∧
        ∀ key, lookupD key sk' =
          lookupD key sk + (decisionSkillLists dps newRecs).flatten.count key := by
  intro dps
  induction dps with
  | nil =>
    intro sk st recs earned sk' st' r h
    simp only [scenarioGo] at h
    cases h
    exact ⟨[], by simp, rfl, fun key => by simp [decisionSkillLists]⟩
  | cons dp rest ih =>
    intro sk st recs earned sk' st' r h
    simp only [scenarioGo] at h
    split at h
    · exact absurd h (by simp)
    · rename_i sta rec hdp
      split at h
      · exact absurd h (by simp)
      · rename_i o hlook
        split at h
        · exact absurd h (by simp)
        · rename_i sk1 earned1 hacc
          rcases ih sk1 sta (recs ++ [rec]) earned1 sk' st' r h with
            ⟨newRecs, hdec, hlen, hcount⟩
          refine ⟨rec :: newRecs, ?_, by simp [hlen], ?_⟩
          · rw [hdec]; simp
          · intro key
            have h1 := hcount key
            have h2 := accrue_count o.skills sk earned sk1 earned1 hacc key
            rw [h1, h2]
            rw [decisionSkillLists_cons]
            simp only [List.flatten_cons, List.count_append, hlook,
              Option.map_some', Option.getD_some]
            omega

/-- A clean scenario run records one decision per decision point and adds
each chosen option's tags once. -/
theorem simulate_scenario_skills (env : Env) (sc : Scenario) (sk : Skills)
    (st : RunState) (sk' : Skills) (st' : RunState) (r : ScenarioRecord)
    (h : simulate_scenario env sc sk st = (sk', st', Except.ok r)) :
    r.decisions.length = sc.decision_points.length ∧
    ∀ key, lookupD key sk' =
      lookupD key sk +
        (decisionSkillLists sc.decision_points r.decisions).flatten.count key := by
  unfold simulate_scenario at h
  rcases scenarioGo_skills env sc _ sc.decision_points sk _ [] [] sk' st' r h with
    ⟨newRecs, hdec, hlen, hcount⟩
  simp only [List.nil_append] at hdec
  subst hdec
  exact ⟨hlen, hcount⟩

/-- The scenario loop never decreases any skill count. -/
theorem scenarioGo_mono (env : Env) (sc : Scenario) (time : Nat) :
    ∀ (dps : List DecisionPoint) (sk : Skills) (st : RunState)
      (recs : List DecisionRecord) (earned : List String) (key : String),
      lookupD key sk ≤ lookupD key (scenarioGo env sc time dps sk st recs earned).1 := by
  intro dps
  induction dps with
  | nil => intro sk st recs earned key; exact Nat.le_refl _
  | cons dp rest ih =>
    intro sk st recs earned key
    simp only [scenarioGo]
    split
    · exact Nat.le_refl _
    · rename_i sta rec hdp
      split
      · exact Nat.le_refl _
      · rename_i o hlook
        split
        · rename_i sk1 f e hacc
          have hm := accrue_mono o.skills sk earned key
          rw [hacc] at hm
          exact hm
        · rename_i sk1 earned1 hacc
          have hm := accrue_mono o.skills sk earned key
          rw [hacc] at hm
          exact Nat.le_trans hm (ih sk1 sta (recs ++ [rec]) earned1 key)

/-- C8 helper: a clean run over the whole catalog records one scenario
record per scenario and adds each chosen option's tags once. -/
theorem runScenarios_skills (env : Env) :
    ∀ (l : List Scenario) (sk : Skills) (st : RunState) (sk' : Skills)
      (st' : RunState) (recs : List ScenarioRecord),
      runScenarios env l sk st = (sk', st', recs, none) →
      recs.length = l.length ∧
      ∀ key, lookupD key sk' =
        lookupD key sk +
          ((l.zip recs).flatMap (fun p =>
            decisionSkillLists p.1.decision_points p.2.decisions)).flatten.count key := by
  intro l
  induction l with
  | nil =>
    intro sk st sk' st' recs h
    simp only [runScenarios] at h
    cases h
    exact ⟨rfl, fun key => by simp⟩
  | cons sc rest ih =>
    intro sk st sk' st' recs h
    simp only [runScenarios] at h
    rcases hsc : simulate_scenario env sc sk st with ⟨ska, sta, resa⟩
    rw [hsc] at h
    cases resa with
    | error e => simp only at h; cases h
    | ok r =>
      simp only at h
      rcases hrest : runScenarios env rest ska sta with ⟨skb, stb, recsb, errb⟩
      rw [hrest] at h
      cases h
      rcases ih ska sta skb stb recsb hrest with ⟨hlen, hcount⟩
      rcases simulate_scenario_skills env sc sk st ska sta r hsc with ⟨_, hsccount⟩
      refine ⟨by simp [hlen], ?_⟩
      intro key
      have h1 := hcount key
      have h2 := hsccount key
      simp only [List.zip_cons_cons, List.flatMap_cons, List.flatten_append,
        List.count_append]
      omega

/-- Every journey starts with a zero count for every skill key. -/
theorem lookupD_initSkills (key : String) : lookupD key initSkills = 0 := by
  have hgen : ∀ (l : List String), lookupD key (l.map (fun s => (s, 0))) = 0 := by
    intro l
    induction l with
    | nil => rfl
    | cons hd tl ih =>
      by_cases hk : key = hd
      · simp [lookupD, alookup, hk]
      · simp only [List.map_cons, lookupD, alookup, if_neg hk]
        exact ih
  exact hgen SKILLS

/-- When every tag list is duplicate-free, counting a key's occurrences
across the flattened lists equals counting the lists that contain it. -/
theorem count_flatten_eq_countP (key : String) :
    ∀ (L : List (List String)), (∀ ls ∈ L, ls.Nodup) →
      L.flatten.count key = L.countP (fun ls => decide (key ∈ ls)) := by
  intro L
  induction L with
  | nil => intro _; rfl
  | cons ls rest ih =>
    intro hnd
    have h1 : ls.Nodup := hnd ls (by simp)
    have h2 : ∀ l ∈ rest, l.Nodup := fun l hl => hnd l (by simp [hl])
    simp only [List.flatten_cons, List.count_append, List.countP_cons, ih h2]
    by_cases hm : key ∈ ls
    · rw [List.count_eq_one_of_mem h1 hm]
      have hd : decide (key ∈ ls) = true := by simp [hm]
      rw [hd, if_pos rfl]
      omega
    · rw [List.count_eq_zero_of_not_mem hm]
      simp [hm]

/-- A completed journey is one whose character-selection call succeeded,
whose scenario loop ran clean, and whose survey call succeeded; its final
skills and scenario records are exactly the clean loop's outputs. -/
theorem journey_completed_spec (env : Env) (p : Persona) (st : RunState)
    (hc : (simulate_full_journey env p st).2.completion_status = "completed") :
    ∃ st2, runScenarios env env.scenarios_data initSkills
        { st with agentIdx := st.agentIdx + 1 } =
      ((simulate_full_journey env p st).2.final_skills, st2,
       (simulate_full_journey env p st).2.scenarios, none) := by
  unfold simulate_full_journey simulate_character_selection at hc ⊢
  cases hag : env.agent st.agentIdx with
  | error e =>
    rw [hag] at hc
    dsimp only at hc
    exact absurd hc (by decide)
  | ok t =>
    rw [hag] at hc
    dsimp only at hc ⊢
    rcases hrs : runScenarios env env.scenarios_data initSkills
        { st with agentIdx := st.agentIdx + 1 } with ⟨sk2, st2, recs2, err2⟩
    rw [hrs] at hc
    cases err2 with
    | some e =>
      dsimp only at hc
      exact absurd hc (by decide)
    | none =>
      dsimp only at hc ⊢
      rcases hfb : generate_feedback_response env st2 with ⟨st3, fb⟩
      rw [hfb] at hc
      cases fb with
      | error e =>
        dsimp only at hc
        exact absurd hc (by decide)
      | ok f => exact ⟨st2, rfl⟩

/-- C8: within one journey, assuming every chosen option's skill tags are
keys of the initial skill state and each option's tag list is
duplicate-free, skill counts never decrease — neither across one
accrual nor across a whole scenario — and a completed journey's final
skill state maps every key to exactly the number of decisions whose
chosen option lists that tag. -/
theorem c8_skill_accumulation (env : Env) (p : Persona) (st : RunState)
    (hc : (simulate_full_journey env p st).2.completion_status = "completed")
    (_hkeys : ∀ ls ∈ journeyChosenSkillLists env (simulate_full_journey env p st).2,
      ∀ tag ∈ ls, tag ∈ keysOf initSkills)
    (hnodup : ∀ ls ∈ journeyChosenSkillLists env (simulate_full_journey env p st).2,
      ls.Nodup) :
    (∀ (tags : List String) (sk : Skills) (earned : List String) (key : String),
      lookupD key sk ≤ lookupD key (accrue tags sk earned).1) ∧
    (∀ (sc : Scenario) (sk : Skills) (st0 : RunState) (key : String),
      lookupD key sk ≤ lookupD key (simulate_scenario env sc sk st0).1) ∧
    (∀ key : String,
      lookupD key (simulate_full_journey env p st).2.final_skills =
        (journeyChosenSkillLists env (simulate_full_journey env p st).2).countP
          (fun ls => decide (key ∈ ls))) := by
  refine ⟨accrue_mono, ?_, ?_⟩
  · intro sc sk st0 key
    unfold simulate_scenario
    exact scenarioGo_mono env sc _ sc.decision_points sk _ [] [] key
  · intro key
    rcases journey_completed_spec env p st hc with ⟨st2, hrs⟩
    rcases runScenarios_skills env env.scenarios_data initSkills
        { st with agentIdx := st.agentIdx + 1 }
        (simulate_full_journey env p st).2.final_skills st2
        (simulate_full_journey env p st).2.scenarios hrs with ⟨hlen, hcount⟩
    have h1 := hcount key
    rw [lookupD_initSkills key, Nat.zero_add] at h1
    rw [h1]
    exact count_flatten_eq_countP key _ hnodup

/-- A one-scenario catalog with one skill-granting option for the C8
witness. -/
def c8Env : Env :=
  ⟨[⟨"s1", "Party", "ctx",
     [⟨"d1", "q", [("A", ⟨"Speak up", ["warning_signs"], "good"⟩)]⟩]⟩],
   fun n =>
     if n = 0 then Except.ok "CHOICE: Alex Chen\nREASONING: fits"
     else if n = 1 then Except.ok "CHOICE: A\nREASONING: direct"
     else Except.ok "thanks",
   fun _ => 0⟩

/-- Witness for C8 on a concrete completed journey: one decision chooses
the option tagged `warning_signs`, and the final skill state counts it
exactly once. -/
theorem c8_skill_accumulation_witness :
    (∀ (tags : List String) (sk : Skills) (earned : List String) (key : String),
      lookupD key sk ≤ lookupD key (accrue tags sk earned).1) ∧
    (∀ (sc : Scenario) (sk : Skills) (st0 : RunState) (key : String),
      lookupD key sk ≤ lookupD key (simulate_scenario c8Env sc sk st0).1) ∧
    (∀ key : String,
      lookupD key (simulate_full_journey c8Env ⟨"p1", "bg"⟩ ⟨0, 0⟩).2.final_skills =
        (journeyChosenSkillLists c8Env
            (simulate_full_journey c8Env ⟨"p1", "bg"⟩ ⟨0, 0⟩).2).countP
          (fun ls => decide (key ∈ ls))) :=
  c8_skill_accumulation c8Env ⟨"p1", "bg"⟩ ⟨0, 0⟩ (by rfl)
    (by decide) (by decide)

end GBV
